import Mathlib

/-
Verification development for the shark-attack data-cleaning functions in
`sharkfunctions_2.py`. Each Python function is shallowly embedded as an
executable Lean definition over an explicit value type `PyVal` that covers the
kinds of cell values the functions handle (strings, Python ints, the missing
sentinel `np.nan`, datetimes produced inside `extract_month_f`, and an opaque
case for any other non-missing scalar such as a float). Fallible Python code
(calls that can raise `ValueError` / `AttributeError`) is embedded in
`Except String`. String operations are modelled on the ASCII fragment the data
uses: Python's Unicode-aware `lower`/`title`/`strip` agree with these models on
ASCII text.
-/

/-! ## ASCII character helpers -/

/-- The 26 ASCII letter pairs `(lower, upper)`, used to model Python's
`str.lower` / `str.title` case mapping on the ASCII fragment. -/
def caseTable : List (Char × Char) :=
  [('a', 'A'), ('b', 'B'), ('c', 'C'), ('d', 'D'), ('e', 'E'), ('f', 'F'),
   ('g', 'G'), ('h', 'H'), ('i', 'I'), ('j', 'J'), ('k', 'K'), ('l', 'L'),
   ('m', 'M'), ('n', 'N'), ('o', 'O'), ('p', 'P'), ('q', 'Q'), ('r', 'R'),
   ('s', 'S'), ('t', 'T'), ('u', 'U'), ('v', 'V'), ('w', 'W'), ('x', 'X'),
   ('y', 'Y'), ('z', 'Z')]

/-- Lower-case one character (ASCII model of Python's case folding). -/
def asciiLower (c : Char) : Char :=
  match caseTable.find? (fun p => p.2 == c) with
  | some p => p.1
  | none => c

/-- Upper-case one character (ASCII model of Python's case folding;
`str.title` title-cases word-initial characters, which on ASCII is
upper-casing). -/
def asciiUpper (c : Char) : Char :=
  match caseTable.find? (fun p => p.1 == c) with
  | some p => p.2
  | none => c

/-- Whether a character is "cased" in the sense used by Python's `str.title`
(ASCII letters in this model). -/
def isCasedA (c : Char) : Bool :=
  ('a' ≤ c && c ≤ 'z') || ('A' ≤ c && c ≤ 'Z')

/-! ## String helpers (models of the Python `str` methods used by the code) -/

/-- `leadsWith l pat` holds when `pat` is an initial segment of `l`. -/
def leadsWith : List Char → List Char → Bool
  | _, [] => true
  | [], _ :: _ => false
  | c :: cs, p :: ps => c == p && leadsWith cs ps

/-- `containsTok l pat`: does `pat` occur as a contiguous run inside `l`?
Models Python's `pat in s` substring test. -/
def containsTok : List Char → List Char → Bool
  | [], pat => pat.isEmpty
  | c :: cs, pat => leadsWith (c :: cs) pat || containsTok cs pat

/-- The characters strictly before the first occurrence of `pat`; the whole
list when `pat` does not occur. Models `s.split(pat)[0]` for nonempty `pat`. -/
def splitHead : List Char → List Char → List Char
  | [], _ => []
  | c :: cs, pat => if leadsWith (c :: cs) pat then [] else c :: splitHead cs pat

/-- Remove every (left-to-right, non-overlapping) occurrence of `pat`.
Models `s.replace(pat, '')` for nonempty `pat`. The fuel argument (always
instantiated with the length of the list) makes the recursion structural. -/
def removeAllAux (pat : List Char) : Nat → List Char → List Char
  | _, [] => []
  | 0, l => l
  | fuel + 1, c :: cs =>
      if leadsWith (c :: cs) pat then removeAllAux pat fuel (cs.drop (pat.length - 1))
      else c :: removeAllAux pat fuel cs

/-- Python `pat in s`. -/
def pyContains (s pat : String) : Bool := containsTok s.data pat.data

/-- Python `s.split(pat)[0]` (text before the first occurrence of `pat`). -/
def pyBefore (s pat : String) : String := ⟨splitHead s.data pat.data⟩

/-- Python `s.replace(pat, '')` for nonempty `pat`. -/
def pyRemove (s pat : String) : String := ⟨removeAllAux pat.data s.data.length s.data⟩

/-- Python `s.strip()` (whitespace model: ASCII whitespace). -/
def pyStrip (s : String) : String :=
  ⟨((s.data.dropWhile Char.isWhitespace).reverse.dropWhile Char.isWhitespace).reverse⟩

/-- Python `s.lower()` (ASCII model). -/
def myLower (s : String) : String := ⟨s.data.map asciiLower⟩

/-- Python `s.isdigit()` for ASCII digit strings: nonempty and all digits. -/
def isDigitStr (s : String) : Bool := !s.data.isEmpty && s.data.all Char.isDigit

/-- One pass of Python's `str.title`: upper-case a character that follows a
non-cased character, lower-case one that follows a cased character; the flag
carries whether the previous original character was cased. -/
def titleAux : Bool → List Char → List Char
  | _, [] => []
  | prevCased, c :: cs =>
      (if prevCased then asciiLower c else asciiUpper c) :: titleAux (isCasedA c) cs

/-- Python `s.title()` (ASCII model). -/
def pyTitle (s : String) : String := ⟨titleAux false s.data⟩

/-! ## Python `int(...)` -/

/-- Numeric value of an ASCII digit. -/
def digitVal (c : Char) : Nat := c.toNat - 48

/-- Digits of an integer literal after the first: digits, optionally grouped by
single underscores (PEP 515), with no trailing underscore. -/
def digitsTail : List Char → Bool
  | [] => true
  | ['_'] => false
  | '_' :: d :: rest => d.isDigit && digitsTail rest
  | c :: rest => c.isDigit && digitsTail rest

/-- A nonempty ASCII digit run, optionally with single underscore separators. -/
def digitsOK : List Char → Bool
  | [] => false
  | c :: rest => c.isDigit && digitsTail rest

/-- Natural number denoted by a digit run (underscores already filtered out). -/
def natOfDigits (l : List Char) : Nat := l.foldl (fun a c => 10 * a + digitVal c) 0

/-- Python `int(s)` on a string: strips surrounding whitespace, accepts an
optional sign and ASCII decimal digits (with PEP 515 underscore grouping), and
raises `ValueError` otherwise. Unicode digits are outside the modelled
fragment. -/
def pyInt (s : String) : Except String Int :=
  match (pyStrip s).data with
  | [] => Except.error "ValueError"
  | c :: cs =>
      if c == '-' then
        if digitsOK cs then Except.ok (-(natOfDigits (cs.filter Char.isDigit) : Int))
        else Except.error "ValueError"
      else if c == '+' then
        if digitsOK cs then Except.ok (natOfDigits (cs.filter Char.isDigit) : Int)
        else Except.error "ValueError"
      else
        if digitsOK (c :: cs) then
          Except.ok (natOfDigits ((c :: cs).filter Char.isDigit) : Int)
        else Except.error "ValueError"

deriving instance DecidableEq for Except

/-! ## Cell values -/

/-- A pandas cell value as the shark functions see it: a Python string, a
Python `int`, the missing sentinel (`np.nan` / `None` / `NaT`), a datetime (as
produced by `pd.to_datetime` inside `extract_month_f`), or `other` — any
further non-missing scalar that is neither a string nor an `int` (for example
the float `5.5`); the claims never depend on which such scalar it is. -/
inductive PyVal where
  | str (s : String)
  | int (n : Int)
  | nan
  | date (y m d : Nat)
  | other
deriving DecidableEq

/-- `pd.isna`: true exactly on the missing sentinel. -/
def isNaPy : PyVal → Bool
  | PyVal.nan => true
  | _ => false

/-- Python `str(v)` as used by `.astype(str)`: a string is unchanged, an int
prints in decimal, `np.nan` prints as the literal text `"nan"`. The `date` and
`other` cases never reach a claim; their Python representations are abstracted
to fixed markers. -/
def pyStr : PyVal → String
  | PyVal.str s => s
  | PyVal.int n => toString n
  | PyVal.nan => "nan"
  | PyVal.date _ _ _ => "<datetime>"
  | PyVal.other => "<object>"

/-! ## format_age_f -/

/-- `format_age_f` from `sharkfunctions_2.py`. The source line
`if',' and '&' in age:` evaluates, by Python operator semantics, the constant
`','` (truthy) conjoined with `'&' in age`, i.e. it is equivalent to
`'&' in age`; the subsequent `if '&' in age:` branch is therefore dead code and
is kept here verbatim for fidelity. `int(...)` failures propagate as
`ValueError`. -/
def format_age_f : PyVal → Except String PyVal
  | PyVal.str s0 =>
      let age := myLower (pyStrip s0)
      if pyContains age "a min" then Except.ok PyVal.nan
      else if pyContains age "?" then Except.ok PyVal.nan
      else if pyContains age "&" then Except.ok PyVal.nan
      else if pyContains age "&" then (pyInt (pyStrip (pyBefore age "&"))).map PyVal.int
      else if pyContains age "or" then (pyInt (pyStrip (pyBefore age "or"))).map PyVal.int
      else if pyContains age "to" then (pyInt (pyStrip (pyBefore age "to"))).map PyVal.int
      else if pyContains age "s" && isDigitStr (pyRemove age "s") then
        (pyInt (pyRemove age "s")).map PyVal.int
      else if pyContains age "'s" && isDigitStr (pyRemove age "'s") then
        (pyInt (pyRemove age "'s")).map PyVal.int
      else if pyContains age "½" then (pyInt (pyStrip (pyBefore age "½"))).map PyVal.int
      else if isDigitStr age then (pyInt age).map PyVal.int
      else Except.ok PyVal.nan
  | PyVal.int n => Except.ok (PyVal.int n)
  | _ => Except.ok PyVal.nan

/-! ## fatal_f -/

/-- `fatal_f` from `sharkfunctions_2.py`: `pd.isna` and `int` inputs yield
`'UNKNOWN'`; a string is stripped and lower-cased and compared against
`'y'`/`'f'`/`'n'`; any other value hits `x.strip()` on a non-string and raises
`AttributeError`. -/
def fatal_f : PyVal → Except String String
  | PyVal.nan => Except.ok "UNKNOWN"
  | PyVal.int _ => Except.ok "UNKNOWN"
  | PyVal.str s =>
      let x := myLower (pyStrip s)
      if x = "y" ∨ x = "f" then Except.ok "Yes"
      else if x = "n" then Except.ok "No"
      else Except.ok "UNKNOWN"
  | _ => Except.error "AttributeError"

/-! ## age_group_f -/

/-- `age_group_f` from `sharkfunctions_2.py`, over exact numerics: Python
chained comparisons become conjunctions. -/
def age_group_f (age : ℚ) : String :=
  if age < 13 then "kids"
  else if 13 ≤ age ∧ age ≤ 17 then "teen"
  else if 18 ≤ age ∧ age ≤ 29 then "young adult"
  else if 30 ≤ age ∧ age ≤ 49 then "adult"
  else if 50 ≤ age then "senior"
  else "unknown"

/-! ## Country normalizers -/

/-- `normalize_case_f`: missing values pass through; strings are title-cased;
any other value (an `int`, a float, a datetime, …) has no `.title()` attribute
and raises `AttributeError`. -/
def normalize_case_f : PyVal → Except String PyVal
  | PyVal.nan => Except.ok PyVal.nan
  | PyVal.str s => Except.ok (PyVal.str (pyTitle s))
  | _ => Except.error "AttributeError"

/-- The `corrections` alias dictionary of `standardize_names_f`, transcribed
entry by entry. -/
def corrections : List (String × String) :=
  [("Usa", "United States"),
   ("Uk", "United Kingdom"),
   ("England", "United Kingdom"),
   ("Ceylon (Sri Lanka)", "Sri Lanka"),
   ("Trinidad & Tobago", "Trinidad and Tobago"),
   ("Trinidad", "Trinidad and Tobago"),
   ("St. Martin", "Saint Martin"),
   ("St. Maartin", "Saint Martin"),
   ("St Martin", "Saint Martin"),
   ("St Kitts / Nevis", "Saint Kitts and Nevis"),
   ("United Arab Emirates (Uae)", "United Arab Emirates"),
   ("Reunion Island", "Reunion"),
   ("St Helena, British Overseas Territory", "Saint Helena"),
   ("Turks And Caicos", "Turks and Caicos Islands"),
   ("Turks & Caicos", "Turks and Caicos Islands"),
   ("Columbia", "Colombia"),
   ("Papua New Guinea", "Papua New Guinea"),
   ("British Overseas Territory", "British Overseas Territories"),
   ("Palestinian Territories", "Palestine"),
   ("New Caledonia", "New Caledonia"),
   ("Northern Arabian Sea", "Arabian Sea"),
   ("Andaman Islands", "Andaman and Nicobar Islands"),
   ("Equatorial Guinea / Cameroon", "Equatorial Guinea"),
   ("Mediterranean Sea", "Mediterranean"),
   ("Red Sea?", "Red Sea"),
   ("Asia?", "Asia"),
   ("Egypt / Israel", "Egypt"),
   ("Between Portugal & India", "India"),
   ("Africa", "African continent"),
   ("Coast Of Africa", "African coast"),
   ("Tasman Sea", "Tasman Sea region"),
   ("Caribbean Sea", "Caribbean"),
   ("Atlantic Ocean", "Atlantic"),
   ("Okinawa", "Japan"),
   ("Roatan", "Honduras"),
   ("Greenland", "Denmark"),
   ("St Kitts", "Saint Kitts and Nevis"),
   ("St Helena", "Saint Helena"),
   ("Bahrein", "Bahrain"),
   ("Diego Garcia", "British Indian Ocean Territory"),
   ("Guam", "United States"),
   ("Hong Kong", "China"),
   ("Korea", "South Korea")]

/-- `standardize_names_f`: `corrections.get(country, country)` — an exact-match
lookup for string values; non-string values are never dictionary keys, so
`.get` returns them unchanged. -/
def standardize_names_f : PyVal → PyVal
  | PyVal.str s => PyVal.str ((List.lookup s corrections).getD s)
  | v => v

/-- The `non_countries` set of `filter_non_countries_f`, transcribed entry by
entry. -/
def non_countries : List String :=
  ["Tasman Sea region", "Mediterranean", "Indian Ocean?", "Atlantic Ocean",
   "Coral Sea", "Tasman Sea", "Mediterranean Sea", "Caribbean Sea",
   "Pacific Ocean", "Indian Ocean", "Red Sea", "Gulf of Aden",
   "Northern Arabian Sea", "Asia", "African continent", "African coast"]

/-- `filter_non_countries_f`: membership in the fixed set becomes the missing
sentinel; everything else (including the sentinel itself and non-strings, which
are never members of a set of strings) passes through. -/
def filter_non_countries_f : PyVal → PyVal
  | PyVal.str s => if s ∈ non_countries then PyVal.nan else PyVal.str s
  | v => v

/-! ## normalize_activity_f -/

/-- The `activity_corrections` dictionary of `normalize_activity_f`,
transcribed entry by entry. The Python dict literal contains the key
`'surf-skiing'` twice with the same value; both occurrences are kept (the first
match wins in `List.lookup`, the later literal wins in a Python dict — with
equal values the behaviours agree). -/
def activity_corrections : List (String × String) :=
  [("scubadiving", "scuba diving"),
   ("bodyboarding", "body boarding"),
   ("bodysurfing", "body surfing"),
   ("boogieboarding", "boogie boarding"),
   ("freediving", "free diving"),
   ("stand-uppaddleboarding", "stand-up paddleboarding"),
   ("kayakfishing", "kayak fishing"),
   ("fishingforsharks", "shark fishing"),
   ("surfing", "surfing"),
   ("swimming", "swimming"),
   ("fishing", "fishing"),
   ("spearfishing", "spearfishing"),
   ("wading", "wading"),
   ("bathing", "bathing"),
   ("diving", "diving"),
   ("snorkeling", "snorkeling"),
   ("standing", "standing"),
   ("treadingwater", "treading water"),
   ("felloverboard", "fell overboard"),
   ("pearldiving", "pearl diving"),
   ("windsurfing", "windsurfing"),
   ("walking", "walking"),
   ("canoeing", "canoeing"),
   ("floating", "floating"),
   ("sharkfishing", "shark fishing"),
   ("surffishing", "surf fishing"),
   ("playing", "playing"),
   ("surf-skiing", "surf skiing"),
   ("rowing", "rowing"),
   ("surf-skiing", "surf skiing"),
   ("paddleboarding", "paddle boarding"),
   ("sponge diving", "sponge diving"),
   ("divingfortrochus", "diving for trochus"),
   ("surfskiiing", "surf skiing"),
   ("seadisaster", "sea disaster"),
   ("skindiving", "free diving")]

/-- `normalize_activity_f`: missing passes through; a string is lower-cased and
space-stripped to a compact key which is looked up in the correction table,
falling back to the compact key itself; a non-string non-missing value has no
`.lower()` attribute and raises `AttributeError`. -/
def normalize_activity_f : PyVal → Except String PyVal
  | PyVal.nan => Except.ok PyVal.nan
  | PyVal.str s =>
      let normalized := pyRemove (myLower s) " "
      Except.ok (PyVal.str ((List.lookup normalized activity_corrections).getD normalized))
  | _ => Except.error "AttributeError"

/-! ## clean_sex_column_f -/

/-- First per-cell pass of `clean_sex_column_f`: lower-case string values. -/
def sexLowerCell : PyVal → PyVal
  | PyVal.str s => PyVal.str (myLower s)
  | v => v

/-- Second per-cell pass of `clean_sex_column_f`: remove the space character
(and only the space character) from string values. -/
def sexSpaceCell : PyVal → PyVal
  | PyVal.str s => PyVal.str (pyRemove s " ")
  | v => v

/-- `clean_sex_column_f`, on the target column: the source applies two
successive `Series.apply` passes over the column, first lower-casing strings,
then removing spaces from strings; non-strings pass through both. -/
def clean_sex_column_f (col : List PyVal) : List PyVal :=
  (col.map sexLowerCell).map sexSpaceCell

/-! ## clean_year_column_f

The year column is numeric in pandas (floats with `NaN` for missing); a cell is
modelled as `Option ℚ` — `none` for the missing sentinel, `some q` for a finite
numeric value (non-finite floats are outside the modelled fragment). A row
carries an arbitrary payload `α` for its other columns, which the function
never touches. -/

/-- `.astype(int)` on one numeric value: truncation toward zero. -/
def truncQ (q : ℚ) : Int := Int.tdiv q.num q.den

/-- `clean_year_column_f` from `sharkfunctions_2.py`, acting on the rows of the
table restricted to (payload, year) form: replace `0.0` by the missing
sentinel, drop rows whose year is missing, convert to integer, and keep only
rows with year at least `validStart` (the source's `valid_start_year`,
default 1900). -/
def clean_year_column_f {α : Type} (df : List (α × Option ℚ)) (validStart : Int) :
    List (α × Int) :=
  ((((df.map (fun r => (r.1, if r.2 = some 0 then none else r.2))).filter
        (fun r => r.2.isSome)).map
      (fun r => (r.1, truncQ (r.2.getD 0)))).filter
    (fun r => decide (validStart ≤ r.2)))

/-! ## Date parsing (`pd.to_datetime` with format `%Y.%m.%d`) -/

/-- Gregorian leap year. -/
def isLeap (y : Nat) : Bool := (y % 4 == 0 && y % 100 != 0) || y % 400 == 0

/-- Days in a month of the proleptic Gregorian calendar. -/
def daysInMonth (y m : Nat) : Nat :=
  if m == 2 then (if isLeap y then 29 else 28)
  else if m == 4 || m == 6 || m == 9 || m == 11 then 30
  else 31

/-- The dates accepted by `pd.to_datetime(..., errors='coerce')`: a valid
Gregorian calendar date that also fits in a nanosecond `Timestamp`
(midnight between `1677-09-22` and `2262-04-11`); anything else coerces to
`NaT`. -/
def validTimestampDate (y m d : Nat) : Bool :=
  decide (1 ≤ m ∧ m ≤ 12 ∧ 1 ≤ d ∧ d ≤ daysInMonth y m ∧
    16770922 ≤ (y * 100 + m) * 100 + d ∧ (y * 100 + m) * 100 + d ≤ 22620411)

/-- Parse a string against the exact format `%Y.%m.%d` (four digits, dot, two
digits, dot, two digits, nothing else — pandas matches the whole string) and
check validity; `none` models coercion to `NaT`. `\d` is modelled as an ASCII
digit. -/
def pdParseDate (s : String) : Option (Nat × Nat × Nat) :=
  match s.data with
  | [a, b, c, d, p1, e, f, p2, g, h] =>
      if a.isDigit && b.isDigit && c.isDigit && d.isDigit && p1 == '.' &&
         e.isDigit && f.isDigit && p2 == '.' && g.isDigit && h.isDigit then
        let y := ((digitVal a * 10 + digitVal b) * 10 + digitVal c) * 10 + digitVal d
        let m := digitVal e * 10 + digitVal f
        let dd := digitVal g * 10 + digitVal h
        if validTimestampDate y m dd then some (y, m, dd) else none
      else none
  | _ => none

/-- A match of the regular expression `\d{4}\.\d{2}\.\d{2}` at the head of the
character list, returning the ten matched characters. -/
def dateTokenAt (l : List Char) : Option (List Char) :=
  match l with
  | a :: b :: c :: d :: p1 :: e :: f :: p2 :: g :: h :: _ =>
      if a.isDigit && b.isDigit && c.isDigit && d.isDigit && p1 == '.' &&
         e.isDigit && f.isDigit && p2 == '.' && g.isDigit && h.isDigit then
        some [a, b, c, d, p1, e, f, p2, g, h]
      else none
  | _ => none

/-- Leftmost match of `\d{4}\.\d{2}\.\d{2}` (Python `re` scans positions left
to right). -/
def firstTokenAux : List Char → Option (List Char)
  | [] => none
  | c :: cs =>
      match dateTokenAt (c :: cs) with
      | some t => some t
      | none => firstTokenAux cs

/-- `Series.str.extract(r'(\d{4}\.\d{2}\.\d{2})')` on one string: the first
matching substring, or the missing sentinel. -/
def firstDateToken (s : String) : Option String := (firstTokenAux s.data).map (⟨·⟩)

/-! ## Tables

A pandas `DataFrame` is modelled as an ordered association list of named
columns; rows align by position. `df[name] = values` replaces the column in
place when the name exists and appends a new column at the right end otherwise,
exactly as pandas does. -/

/-- A table: named columns in order. -/
abbrev Table := List (String × List PyVal)

/-- The column names, in order. -/
def colNames (t : Table) : List String := t.map Prod.fst

/-- `df[name]`: the values of the (first) column called `name`. -/
def getCol (t : Table) (n : String) : List PyVal :=
  match t.find? (fun c => c.1 == n) with
  | some c => c.2
  | none => []

/-- `df[name] = values`: replace in place, or append a new column at the end. -/
def setCol (t : Table) (n : String) (vs : List PyVal) : Table :=
  if (t.map Prod.fst).contains n then
    t.map (fun c => if c.1 == n then (n, vs) else c)
  else t ++ [(n, vs)]

/-- `df.drop(columns=[name])`. -/
def dropCol (t : Table) (n : String) : Table := t.filter (fun c => !(c.1 == n))

/-- `df[cols]`: select (and reorder) columns by name. -/
def selectCols (t : Table) (ns : List String) : Table :=
  ns.map (fun n => (n, getCol t n))

/-- Python `list.index(a)` (the list always contains `a` where this is used;
`.index` would raise otherwise). -/
def pyIndex (a : String) : List String → Nat
  | [] => 0
  | b :: l => if b == a then 0 else pyIndex a l + 1

/-- Python `list.insert(i, a)`: insert before position `i`, clamping to the
end when `i` exceeds the length. -/
def pyInsert {β : Type} : Nat → β → List β → List β
  | 0, a, l => a :: l
  | _ + 1, a, [] => [a]
  | n + 1, a, c :: cs => c :: pyInsert n a cs

/-! ## extract_month_f -/

/-- Per-cell `.astype(str)`. -/
def astypeStrCell (v : PyVal) : PyVal := PyVal.str (pyStr v)

/-- Per-cell `str.extract`: the first date-pattern match, or the missing
sentinel (also for the non-string cells the `.str` accessor maps to `NaN`;
after `.astype(str)` every cell is a string anyway). -/
def strExtractDate : PyVal → PyVal
  | PyVal.str s =>
      match firstDateToken s with
      | some tok => PyVal.str tok
      | none => PyVal.nan
  | _ => PyVal.nan

/-- Per-cell `pd.to_datetime(..., format='%Y.%m.%d', errors='coerce')`. -/
def toDatetime : PyVal → PyVal
  | PyVal.str s =>
      match pdParseDate s with
      | some (y, m, d) => PyVal.date y m d
      | none => PyVal.nan
  | _ => PyVal.nan

/-- Per-cell `.dt.month` (`NaT` gives the missing sentinel). -/
def dtMonth : PyVal → PyVal
  | PyVal.date _ m _ => PyVal.int (m : Int)
  | _ => PyVal.nan

/-- Step 1 of `extract_month_f`: `df[pdf_column] = df[pdf_column].astype(str)`. -/
def emStep1 (t : Table) (p : String) : Table :=
  setCol t p ((getCol t p).map astypeStrCell)

/-- Step 2: `df['date2'] = df[pdf_column].str.extract(r'(\d{4}\.\d{2}\.\d{2})')`. -/
def emStep2 (t : Table) (p : String) : Table :=
  setCol (emStep1 t p) "date2" ((getCol (emStep1 t p) p).map strExtractDate)

/-- Step 3: `df['date2'] = pd.to_datetime(df['date2'], format='%Y.%m.%d', errors='coerce')`. -/
def emStep3 (t : Table) (p : String) : Table :=
  setCol (emStep2 t p) "date2" ((getCol (emStep2 t p) "date2").map toDatetime)

/-- Step 4: `df['month'] = df['date2'].dt.month`. -/
def emStep4 (t : Table) (p : String) : Table :=
  setCol (emStep3 t p) "month" ((getCol (emStep3 t p) "date2").map dtMonth)

/-- Step 5: `df.drop(columns=['date2'], inplace=True)`. -/
def emStep5 (t : Table) (p : String) : Table := dropCol (emStep4 t p) "date2"

/-- `extract_month_f` from `sharkfunctions_2.py`: the five steps above followed
by the column move `cols.insert(1, cols.pop(cols.index('month'))); df = df[cols]`
(the popped element is the name `'month'` itself). -/
def extract_month_f (t : Table) (p : String) : Table :=
  let t5 := emStep5 t p
  let cols := colNames t5
  let cols2 := pyInsert 1 "month" (cols.eraseIdx (pyIndex "month" cols))
  selectCols t5 cols2

/-! ## extract_month_from_date_f -/

/-- The `month_mapping` dictionary of `extract_month_from_date_f`. -/
def month_mapping : List (String × Int) :=
  [("Jan", 1), ("Feb", 2), ("Mar", 3), ("Apr", 4), ("May", 5), ("Jun", 6),
   ("Jul", 7), ("Aug", 8), ("Sep", 9), ("Oct", 10), ("Nov", 11), ("Dec", 12)]

/-- Python `s[-8:-5]`: the slice between offsets `-8` and `-5` from the end,
with Python's clamping for short strings. -/
def slice85 (s : String) : String :=
  ⟨(s.data.take (s.data.length - 5)).drop (s.data.length - 8)⟩

/-- The backfill of one row's month cell: only rows whose month is missing are
touched (`mask = df[month_column].isna()`); for those, the three-character
slice of the date text is mapped through `month_mapping`, unmapped slices and
non-string date cells giving the missing sentinel. -/
def backfillCell (dateV monthV : PyVal) : PyVal :=
  if isNaPy monthV then
    match dateV with
    | PyVal.str s =>
        match List.lookup (slice85 s) month_mapping with
        | some m => PyVal.int m
        | none => PyVal.nan
    | _ => PyVal.nan
  else monthV

/-- Per-cell `pd.to_numeric(..., errors='coerce')`: numbers and the missing
sentinel pass through; a string parses as an integer literal when possible and
otherwise coerces to the missing sentinel (fractional numeric strings, which
would become floats, are outside the fragment the claims touch); any other
object coerces to the missing sentinel. -/
def toNumericCell : PyVal → PyVal
  | PyVal.int n => PyVal.int n
  | PyVal.nan => PyVal.nan
  | PyVal.str s =>
      match pyInt s with
      | Except.ok n => PyVal.int n
      | Except.error _ => PyVal.nan
  | _ => PyVal.nan

/-- `extract_month_from_date_f` from `sharkfunctions_2.py`, on the (date text,
month) pairs of the rows: every involved pandas operation is element-wise, so
the function acts row by row — backfill where the month is missing, then
coerce the whole month column to numeric. -/
def extract_month_from_date_f (rows : List (PyVal × PyVal)) : List (PyVal × PyVal) :=
  rows.map (fun r => (r.1, toNumericCell (backfillCell r.1 r.2)))

/-! ## Spec-side comparator definitions -/

/-- The three symbolic outcomes of the fatality contract in the specification. -/
inductive FatalOutcome where
  | affirmative
  | negative
  | unknown
deriving DecidableEq

/-- The specification's fatality contract, stated in its own words (for the C3
refinement): missing input yields unknown; integer-typed input yields unknown;
any other input is coerced to a trimmed lower-case string, with "y" or "f"
yielding affirmative, "n" yielding negative, and anything else unknown. -/
def fatalSpec : PyVal → FatalOutcome
  | PyVal.nan => FatalOutcome.unknown
  | PyVal.int _ => FatalOutcome.unknown
  | v =>
      let x := myLower (pyStrip (pyStr v))
      if x = "y" ∨ x = "f" then FatalOutcome.affirmative
      else if x = "n" then FatalOutcome.negative
      else FatalOutcome.unknown

/-- The concrete strings the reference code uses for the three outcomes. -/
def outcomeStr : FatalOutcome → String
  | FatalOutcome.affirmative => "Yes"
  | FatalOutcome.negative => "No"
  | FatalOutcome.unknown => "UNKNOWN"

/-- The specification's age buckets over the integers, stated in its own words
(for the C9 comparison): below 13 kids; 13–17 teen; 18–29 young adult; 30–49
adult; 50 and above senior. -/
def ageGroupSpec (n : Int) : String :=
  if n < 13 then "kids"
  else if n ≤ 17 then "teen"
  else if n ≤ 29 then "young adult"
  else if n ≤ 49 then "adult"
  else "senior"

/-! ## Helper lemmas on the ASCII case model -/

theorem caseTable_find?_snd_of_mem {p : Char × Char} (hp : p ∈ caseTable) :
    caseTable.find? (fun q => q.2 == p.1) = none := by
  fin_cases hp <;> decide

theorem caseTable_find?_fst_of_mem {p : Char × Char} (hp : p ∈ caseTable) :
    caseTable.find? (fun q => q.1 == p.2) = none := by
  fin_cases hp <;> decide

theorem asciiLower_asciiLower (c : Char) : asciiLower (asciiLower c) = asciiLower c := by
  cases h : caseTable.find? (fun q => q.2 == c) with
  | none => simp [asciiLower, h]
  | some p =>
      have hp : p ∈ caseTable := List.mem_of_find?_eq_some h
      simp [asciiLower, h, caseTable_find?_snd_of_mem hp]

theorem asciiUpper_asciiUpper (c : Char) : asciiUpper (asciiUpper c) = asciiUpper c := by
  cases h : caseTable.find? (fun q => q.1 == c) with
  | none => simp [asciiUpper, h]
  | some p =>
      have hp : p ∈ caseTable := List.mem_of_find?_eq_some h
      simp [asciiUpper, h, caseTable_find?_fst_of_mem hp]

theorem isCasedA_asciiLower (c : Char) : isCasedA (asciiLower c) = isCasedA c := by
  cases h : caseTable.find? (fun q => q.2 == c) with
  | none => simp [asciiLower, h]
  | some p =>
      have hp : p ∈ caseTable := List.mem_of_find?_eq_some h
      have hc : p.2 = c := by simpa using List.find?_some h
      subst hc
      simp only [asciiLower, h]
      fin_cases hp <;> decide

theorem isCasedA_asciiUpper (c : Char) : isCasedA (asciiUpper c) = isCasedA c := by
  cases h : caseTable.find? (fun q => q.1 == c) with
  | none => simp [asciiUpper, h]
  | some p =>
      have hp : p ∈ caseTable := List.mem_of_find?_eq_some h
      have hc : p.1 = c := by simpa using List.find?_some h
      subst hc
      simp only [asciiUpper, h]
      fin_cases hp <;> decide

theorem asciiLower_space_iff (c : Char) : asciiLower c = ' ' ↔ c = ' ' := by
  cases h : caseTable.find? (fun q => q.2 == c) with
  | none => simp [asciiLower, h]
  | some p =>
      have hp : p ∈ caseTable := List.mem_of_find?_eq_some h
      have hc : p.2 = c := by simpa using List.find?_some h
      subst hc
      simp only [asciiLower, h]
      fin_cases hp <;> decide

/-! ## C1 -/

/-- C1 counterexample: "28 & 30" contains "&" and does not contain "," (and
passes the earlier "a min" / "?" rules), yet `format_age_f` returns the missing
sentinel, not the integer 28 parsed before the "&": the source condition
`if',' and '&' in age` tests only `'&' in age`, so the claimed
parse-before-"&" behaviour never happens. -/
theorem c1_counterexample :
    pyContains (myLower (pyStrip "28 & 30")) "&" = true ∧
    pyContains (myLower (pyStrip "28 & 30")) "," = false ∧
    format_age_f (PyVal.str "28 & 30") = Except.ok PyVal.nan ∧
    PyVal.nan ≠ PyVal.int 28 := by
  refine ⟨by decide, by decide, by decide, by decide⟩

/-- C1 (amended): on a trimmed, lower-cased string that passed the earlier
rules (no "a min", no "?"), any occurrence of "&" — with or without "," —
makes `format_age_f` return the missing sentinel; the branch that would parse
the integer before the first "&" is unreachable. -/
theorem c1_amended (s : String)
    (h1 : ¬ pyContains (myLower (pyStrip s)) "a min")
    (h2 : ¬ pyContains (myLower (pyStrip s)) "?")
    (h3 : pyContains (myLower (pyStrip s)) "&") :
    format_age_f (PyVal.str s) = Except.ok PyVal.nan := by
  simp only [format_age_f]
  rw [if_neg (by simpa using h1), if_neg (by simpa using h2), if_pos (by simpa using h3)]

/-- C1 witness: the amended statement evaluated at "28 & 30". -/
theorem c1_witness : format_age_f (PyVal.str "28 & 30") = Except.ok PyVal.nan :=
  c1_amended "28 & 30" (by decide) (by decide) (by decide)

/-! ## C2 -/

/-- C2 counterexample: `format_age_f` can return a negative integer (the
integer input −5 passes through unchanged), and on the string "x or y" it
raises `ValueError` instead of returning a value — so the result is not always
a non-negative integer or the missing sentinel. -/
theorem c2_counterexample :
    format_age_f (PyVal.int (-5)) = Except.ok (PyVal.int (-5)) ∧ (-5 : Int) < 0 ∧
    format_age_f (PyVal.str "x or y") = Except.error "ValueError" := by
  refine ⟨by decide, by decide, by decide⟩

/-- C2 (amended): whenever `format_age_f` returns normally, the returned value
is an integer (possibly negative) or the missing sentinel — never a string, a
range, or any other kind of value; on malformed numeric text inside a matched
branch it raises instead of returning. -/
theorem exceptMap_int_ok {x : Except String Int} {r : PyVal}
    (h : Except.map PyVal.int x = Except.ok r) : ∃ n : Int, r = PyVal.int n := by
  cases x with
  | ok n => refine ⟨n, ?_⟩; injection h with h; exact h.symm
  | error e => exact absurd h (by simp [Except.map])

theorem c2_amended (v r : PyVal) (h : format_age_f v = Except.ok r) :
    (∃ n : Int, r = PyVal.int n) ∨ r = PyVal.nan := by
  cases v with
  | str s =>
      simp only [format_age_f] at h
      split_ifs at h
      all_goals first
        | (right; injection h with h; exact h.symm)
        | (left; exact exceptMap_int_ok h)
  | int n => left; exact ⟨n, by injection h with h; exact h.symm⟩
  | nan => right; injection h with h; exact h.symm
  | date y m d => right; injection h with h; exact h.symm
  | other => right; injection h with h; exact h.symm

/-- C2 witness: the amended statement evaluated at the string "30 or 40",
which parses to the integer 30. -/
theorem c2_witness :
    (∃ n : Int, PyVal.int 30 = PyVal.int n) ∨ PyVal.int 30 = PyVal.nan :=
  c2_amended (PyVal.str "30 or 40") (PyVal.int 30) (by decide)

/-! ## C3 -/

/-- C3 counterexample: on a non-missing input that is neither a string nor an
integer (such as the float `5.5`, here the opaque `other` value), `fatal_f`
raises `AttributeError` at `x.strip()` instead of coercing the value to a
string and classifying it — so an exception does escape. -/
theorem c3_counterexample : fatal_f PyVal.other = Except.error "AttributeError" := by
  decide

/-- C3 (amended): missing input yields unknown, integer-typed input yields
unknown regardless of its value, and string input is trimmed, lower-cased and
classified ("y"/"f" affirmative, "n" negative, anything else unknown) — but a
non-missing input that is neither a string nor an integer raises
`AttributeError` rather than being coerced to a string. -/
theorem c3_amended (v : PyVal) :
    fatal_f v =
      match v with
      | PyVal.str _ => Except.ok (outcomeStr (fatalSpec v))
      | PyVal.int _ => Except.ok (outcomeStr (fatalSpec v))
      | PyVal.nan => Except.ok (outcomeStr (fatalSpec v))
      | _ => Except.error "AttributeError" := by
  cases v with
  | str s =>
      simp only [fatal_f, fatalSpec, outcomeStr, pyStr]
      split_ifs <;> rfl
  | int n => rfl
  | nan => rfl
  | date y m d => rfl
  | other => rfl

/-! ## C6 -/

/-- C6 counterexample: `clean_sex_column_f` removes only the space character,
not every whitespace character: the cell "M\t" maps to "m\t" (tab kept), not
to "m" as the claim's all-whitespace reading requires. -/
theorem c6_counterexample :
    clean_sex_column_f [PyVal.str "M\t"] = [PyVal.str "m\t"] ∧
    PyVal.str "m\t" ≠ PyVal.str "m" := by
  refine ⟨by decide, by decide⟩

/-- C6 (amended): for every cell of the target column, `clean_sex_column_f`
maps a string value to that string lower-cased with every space character
(U+0020, and only that character — tabs and other whitespace are kept) removed,
and leaves every non-string value, including the missing sentinel and integers,
unchanged. -/
theorem c6_amended (col : List PyVal) :
    clean_sex_column_f col =
      col.map (fun v =>
        match v with
        | PyVal.str s => PyVal.str (pyRemove (myLower s) " ")
        | w => w) := by
  unfold clean_sex_column_f
  rw [List.map_map]
  congr 1
  funext v
  cases v <;> rfl

/-! ## C9 -/

/-- C9 counterexample: the five numeric comparisons of `age_group_f` are not
exhaustive over the reals — at the numeric age 35/2 = 17.5 none of them holds
and the "unknown" branch is reached. -/
theorem c9_counterexample : age_group_f (35 / 2 : ℚ) = "unknown" := by
  unfold age_group_f
  rw [if_neg (by norm_num), if_neg (by norm_num), if_neg (by norm_num),
    if_neg (by norm_num), if_neg (by norm_num)]

/-- C9 (amended): on integer ages the five stated buckets are correct and
exhaustive (the "unknown" branch never fires), but over all numeric ages the
"unknown" branch is reachable exactly on the non-integer gaps (17,18), (29,30)
and (49,50) left open by the chained comparisons. -/
theorem c9_amended :
    (∀ n : Int, age_group_f (n : ℚ) = ageGroupSpec n) ∧
    (∀ q : ℚ, age_group_f q = "unknown" ↔
      (17 < q ∧ q < 18) ∨ (29 < q ∧ q < 30) ∨ (49 < q ∧ q < 50)) := by
  constructor
  · intro n
    have e1 : ((n : ℚ) < 13) ↔ (n < 13) := by exact_mod_cast Iff.rfl
    have e2 : ((13 : ℚ) ≤ (n : ℚ)) ↔ ((13 : Int) ≤ n) := by exact_mod_cast Iff.rfl
    have e3 : ((n : ℚ) ≤ 17) ↔ (n ≤ 17) := by exact_mod_cast Iff.rfl
    have e4 : ((18 : ℚ) ≤ (n : ℚ)) ↔ ((18 : Int) ≤ n) := by exact_mod_cast Iff.rfl
    have e5 : ((n : ℚ) ≤ 29) ↔ (n ≤ 29) := by exact_mod_cast Iff.rfl
    have e6 : ((30 : ℚ) ≤ (n : ℚ)) ↔ ((30 : Int) ≤ n) := by exact_mod_cast Iff.rfl
    have e7 : ((n : ℚ) ≤ 49) ↔ (n ≤ 49) := by exact_mod_cast Iff.rfl
    have e8 : ((50 : ℚ) ≤ (n : ℚ)) ↔ ((50 : Int) ≤ n) := by exact_mod_cast Iff.rfl
    simp only [age_group_f, ageGroupSpec, e1, e2, e3, e4, e5, e6, e7, e8]
    split_ifs <;> first | rfl | (exfalso; omega)
  · intro q
    unfold age_group_f
    split_ifs with g1 g2 g3 g4 g5
    · exact iff_of_false (by decide) (by rintro (⟨a, b⟩ | ⟨a, b⟩ | ⟨a, b⟩) <;> linarith)
    · exact iff_of_false (by decide) (by rintro (⟨a, b⟩ | ⟨a, b⟩ | ⟨a, b⟩) <;>
        [skip; skip; skip] <;> linarith)
    · exact iff_of_false (by decide) (by rintro (⟨a, b⟩ | ⟨a, b⟩ | ⟨a, b⟩) <;> linarith)
    · exact iff_of_false (by decide) (by rintro (⟨a, b⟩ | ⟨a, b⟩ | ⟨a, b⟩) <;> linarith)
    · exact iff_of_false (by decide) (by rintro (⟨a, b⟩ | ⟨a, b⟩ | ⟨a, b⟩) <;> linarith)
    · refine iff_of_true rfl ?_
      rw [not_lt] at g1
      push_neg at g2 g3 g4
      rw [not_le] at g5
      have h17 : 17 < q := g2 g1
      by_cases h18 : q < 18
      · exact Or.inl ⟨h17, h18⟩
      · rw [not_lt] at h18
        have h29 : 29 < q := g3 h18
        by_cases h30 : q < 30
        · exact Or.inr (Or.inl ⟨h29, h30⟩)
        · rw [not_lt] at h30
          have h49 : 49 < q := g4 h30
          by_cases h50 : q < 50
          · exact Or.inr (Or.inr ⟨h49, h50⟩)
          · rw [not_lt] at h50; linarith

/-! ## C4 helper lemmas -/

theorem removeAllAux_singleton (p : Char) (fuel : Nat) (l : List Char)
    (h : l.length ≤ fuel) :
    removeAllAux [p] fuel l = l.filter (fun c => !(c == p)) := by
  induction fuel generalizing l with
  | zero =>
      cases l with
      | nil => rfl
      | cons c cs => simp at h
  | succ fuel ih =>
      cases l with
      | nil => rfl
      | cons c cs =>
          have hlen : cs.length ≤ fuel := by simpa using h
          by_cases hc : c == p
          · simp [removeAllAux, leadsWith, hc, ih cs hlen, List.filter_cons]
          · simp [removeAllAux, leadsWith, hc, ih cs hlen, List.filter_cons]

theorem map_asciiLower_idem (l : List Char) :
    (l.map asciiLower).map asciiLower = l.map asciiLower := by
  induction l with
  | nil => rfl
  | cons c cs ih => simp [asciiLower_asciiLower, ih]

theorem map_asciiLower_filter_space (l : List Char) :
    (l.filter (fun c => !(c == ' '))).map asciiLower =
      (l.map asciiLower).filter (fun c => !(c == ' ')) := by
  induction l with
  | nil => rfl
  | cons c cs ih =>
      by_cases hc : c = ' '
      · subst hc
        simp [List.filter_cons, (by decide : asciiLower ' ' = ' '), ih]
      · have h1 : ¬(asciiLower c = ' ') := fun hcon => hc ((asciiLower_space_iff c).mp hcon)
        simp [List.filter_cons, hc, h1, ih]

theorem titleAux_idem (l : List Char) (b : Bool) :
    titleAux b (titleAux b l) = titleAux b l := by
  induction l generalizing b with
  | nil => rfl
  | cons c cs ih =>
      cases b with
      | false => simp [titleAux, asciiUpper_asciiUpper, isCasedA_asciiUpper, ih]
      | true => simp [titleAux, asciiLower_asciiLower, isCasedA_asciiLower, ih]

theorem pyTitle_idem (s : String) : pyTitle (pyTitle s) = pyTitle s := by
  show (⟨titleAux false (titleAux false s.data)⟩ : String) = ⟨titleAux false s.data⟩
  rw [titleAux_idem]

theorem lookup_mem {β : Type} {l : List (String × β)} {a : String} {b : β}
    (h : List.lookup a l = some b) : (a, b) ∈ l := by
  induction l with
  | nil => simp [List.lookup] at h
  | cons p ps ih =>
      cases p with
      | mk k v =>
          rw [List.lookup] at h
          split at h
          next hc =>
            injection h with h
            subst h
            have hk : a = k := by simpa using hc
            subst hk
            exact List.mem_cons_self _ _
          next hc => exact List.mem_cons_of_mem _ (ih h)

theorem corrections_vals_closed :
    corrections.all (fun p => ((List.lookup p.2 corrections).getD p.2) == p.2) = true := by
  decide


theorem filter_space_idem (l : List Char) :
    (l.filter (fun c => !(c == ' '))).filter (fun c => !(c == ' ')) =
      l.filter (fun c => !(c == ' ')) := by
  induction l with
  | nil => rfl
  | cons c cs ih =>
      by_cases hc : c == ' '
      · simp [List.filter_cons, hc, ih]
      · simp [List.filter_cons, hc, ih]

theorem pyRemove_space_data (s : String) :
    (pyRemove s " ").data = s.data.filter (fun c => !(c == ' ')) := by
  show removeAllAux (" " : String).data s.data.length s.data = _
  have h : (" " : String).data = [' '] := rfl
  rw [h, removeAllAux_singleton ' ' s.data.length s.data le_rfl]

theorem sex_str_idem (s : String) :
    pyRemove (myLower (pyRemove (myLower s) " ")) " " = pyRemove (myLower s) " " := by
  apply String.ext
  rw [pyRemove_space_data, pyRemove_space_data]
  show ((pyRemove (myLower s) " ").data.map asciiLower).filter _ = _
  rw [pyRemove_space_data]
  show (((s.data.map asciiLower).filter (fun c => !(c == ' '))).map asciiLower).filter
      (fun c => !(c == ' ')) = (s.data.map asciiLower).filter (fun c => !(c == ' '))
  rw [map_asciiLower_filter_space, map_asciiLower_idem, filter_space_idem]

/-- The per-cell composite of the two `clean_sex_column_f` passes is
idempotent. -/
theorem sex_cell_idem (v : PyVal) :
    sexSpaceCell (sexLowerCell (sexSpaceCell (sexLowerCell v))) =
      sexSpaceCell (sexLowerCell v) := by
  cases v with
  | str s =>
      show PyVal.str (pyRemove (myLower (pyRemove (myLower s) " ")) " ") =
        PyVal.str (pyRemove (myLower s) " ")
      rw [sex_str_idem]
  | int n => rfl
  | nan => rfl
  | date y m d => rfl
  | other => rfl

/-! ## C4 -/

/-- C4 counterexample: neither `normalize_activity_f` nor `fatal_f` is
idempotent. "surf-skiing" normalizes to the display phrase "surf skiing",
whose own compact key "surfskiing" is not in the correction table (only the
misspelt "surfskiiing" is), so a second application yields "surfskiing"; and
`fatal_f` maps "Y" to "Yes" but "Yes" to "UNKNOWN". -/
theorem c4_counterexample :
    normalize_activity_f (PyVal.str "surf-skiing") = Except.ok (PyVal.str "surf skiing") ∧
    normalize_activity_f (PyVal.str "surf skiing") = Except.ok (PyVal.str "surfskiing") ∧
    PyVal.str "surfskiing" ≠ PyVal.str "surf skiing" ∧
    fatal_f (PyVal.str "Y") = Except.ok "Yes" ∧
    fatal_f (PyVal.str "Yes") = Except.ok "UNKNOWN" ∧
    ("UNKNOWN" : String) ≠ "Yes" := by
  refine ⟨by decide, by decide, by decide, by decide, by decide, by decide⟩

/-- C4 (amended): of the listed transforms, `clean_sex_column_f` and the three
country-normalizer stages are idempotent (for the fallible case-normalizer:
re-applying it to any successful result returns that result, stated with
`Except.bind`); `normalize_activity_f` and `fatal_f` are not idempotent, as the
counterexample shows. -/
theorem c4_amended :
    (∀ col : List PyVal, clean_sex_column_f (clean_sex_column_f col) = clean_sex_column_f col) ∧
    (∀ v : PyVal, Except.bind (normalize_case_f v) normalize_case_f = normalize_case_f v) ∧
    (∀ v : PyVal, standardize_names_f (standardize_names_f v) = standardize_names_f v) ∧
    (∀ v : PyVal, filter_non_countries_f (filter_non_countries_f v) = filter_non_countries_f v) := by
  refine ⟨?_, ?_, ?_, ?_⟩
  · intro col
    unfold clean_sex_column_f
    rw [List.map_map, List.map_map, List.map_map, List.map_map]
    congr 1
    funext v
    exact sex_cell_idem v
  · intro v
    cases v with
    | str s =>
        show Except.bind (Except.ok (PyVal.str (pyTitle s))) normalize_case_f =
          Except.ok (PyVal.str (pyTitle s))
        show normalize_case_f (PyVal.str (pyTitle s)) = Except.ok (PyVal.str (pyTitle s))
        show Except.ok (PyVal.str (pyTitle (pyTitle s))) = Except.ok (PyVal.str (pyTitle s))
        rw [pyTitle_idem]
    | int n => rfl
    | nan => rfl
    | date y m d => rfl
    | other => rfl
  · intro v
    cases v with
    | str s =>
        simp only [standardize_names_f]
        cases h : List.lookup s corrections with
        | none => simp [h]
        | some b =>
            have hmem : (s, b) ∈ corrections := lookup_mem h
            have hb : ((List.lookup b corrections).getD b) == b :=
              List.all_eq_true.mp corrections_vals_closed _ hmem
            have hb2 : ((List.lookup b corrections).getD b) = b := by simpa using hb
            simp [h, hb2]
    | int n => rfl
    | nan => rfl
    | date y m d => rfl
    | other => rfl
  · intro v
    cases v with
    | str s =>
        simp only [filter_non_countries_f]
        by_cases h : s ∈ non_countries
        · simp [h, filter_non_countries_f]
        · simp [h, filter_non_countries_f]
    | int n => rfl
    | nan => rfl
    | date y m d => rfl
    | other => rfl

/-! ## C5 -/

/-- C5: for every input table, after `clean_year_column_f` every remaining
row's year is an integer at least the configured minimum, and every surviving
row comes from an input row whose original year was present (`some y`) and
nonzero — so no row with original year zero or missing survives. The embedded
function is total: unparseable (missing) values are excluded by the drop step
rather than raising. -/
theorem c5_year_clean {α : Type} (df : List (α × Option ℚ)) (validStart : Int) :
    (∀ r ∈ clean_year_column_f df validStart, validStart ≤ r.2) ∧
    (∀ r ∈ clean_year_column_f df validStart,
      ∃ y : ℚ, (r.1, some y) ∈ df ∧ y ≠ 0 ∧ r.2 = truncQ y) := by
  constructor
  · intro r hr
    unfold clean_year_column_f at hr
    rw [List.mem_filter] at hr
    exact of_decide_eq_true hr.2
  · intro r hr
    unfold clean_year_column_f at hr
    rw [List.mem_filter] at hr
    obtain ⟨hr3, _⟩ := hr
    rw [List.mem_map] at hr3
    obtain ⟨r2, hr2, hr2eq⟩ := hr3
    rw [List.mem_filter] at hr2
    obtain ⟨hr2mem, hr2some⟩ := hr2
    rw [List.mem_map] at hr2mem
    obtain ⟨r0, hr0, hr0eq⟩ := hr2mem
    cases hy : r0.2 with
    | none =>
        exfalso
        rw [← hr0eq, hy] at hr2some
        simp at hr2some
    | some y =>
        by_cases hy0 : y = 0
        · exfalso
          subst hy0
          rw [← hr0eq, hy] at hr2some
          simp at hr2some
        · refine ⟨y, ?_, hy0, ?_⟩
          · have h1 : r.1 = r0.1 := by rw [← hr2eq, ← hr0eq]
            have h2 : (r0.1, some y) = r0 := by rw [← hy]
            rw [h1, h2]
            exact hr0
          · rw [← hr2eq, ← hr0eq, hy]
            simp [hy0]

/-- C5 witness: on the concrete table with years 1950, missing, 0 and 1850,
the surviving row (payload 0, year 1950) satisfies the minimum-year bound. -/
theorem c5_witness : (1900 : Int) ≤ 1950 :=
  (c5_year_clean [((0 : Nat), some (1950 : ℚ)), (1, none), (2, some 0), (3, some 1850)]
    1900).1 (0, 1950) (by decide)

/-! ## C8 -/

/-- C8 counterexample: a row whose month is already present but non-numeric
(the string "x") does not keep its value — the final
`pd.to_numeric(..., errors='coerce')` pass replaces it with the missing
sentinel. -/
theorem c8_counterexample :
    extract_month_from_date_f [(PyVal.str "d", PyVal.str "x")] =
      [(PyVal.str "d", PyVal.nan)] ∧
    PyVal.nan ≠ PyVal.str "x" := by
  refine ⟨by decide, by decide⟩

/-- C8 (amended): rows whose month is already present keep it unchanged when it
is numeric (an integer); rows whose month is missing are filled from the slice
of the date text at offsets −8 to −5 mapped through the fixed Jan=1 … Dec=12
table, with unmapped or out-of-range slices (and non-string date cells)
yielding the missing sentinel; a present non-numeric month is coerced to the
missing sentinel by the final numeric-coercion step rather than kept. -/
theorem c8_amended (rows : List (PyVal × PyVal)) :
    (∀ (i : Nat) (d : PyVal) (k : Int), rows.get? i = some (d, PyVal.int k) →
      (extract_month_from_date_f rows).get? i = some (d, PyVal.int k)) ∧
    (∀ (i : Nat) (d : PyVal), rows.get? i = some (d, PyVal.nan) →
      (extract_month_from_date_f rows).get? i =
        some (d, match d with
          | PyVal.str s =>
              (match List.lookup (slice85 s) month_mapping with
               | some m => PyVal.int m
               | none => PyVal.nan)
          | _ => PyVal.nan)) := by
  constructor
  · intro i d k hi
    unfold extract_month_from_date_f
    rw [List.get?_map, hi]
    rfl
  · intro i d hi
    unfold extract_month_from_date_f
    rw [List.get?_map, hi]
    show some (d, toNumericCell (backfillCell d PyVal.nan)) = _
    cases d with
    | str s =>
        cases hl : List.lookup (slice85 s) month_mapping with
        | some m => simp [backfillCell, isNaPy, toNumericCell, hl]
        | none => simp [backfillCell, isNaPy, toNumericCell, hl]
    | int n => rfl
    | nan => rfl
    | date y m dd => rfl
    | other => rfl

/-- C8 witness: the amended statement evaluated on a one-row table whose date
text ends in "Aug-2015" and whose month is missing: the month resolves to 8. -/
theorem c8_witness :
    (extract_month_from_date_f [(PyVal.str "10-Aug-2015", PyVal.nan)]).get? 0 =
      some (PyVal.str "10-Aug-2015", PyVal.int 8) := by
  have h := (c8_amended [(PyVal.str "10-Aug-2015", PyVal.nan)]).2 0
    (PyVal.str "10-Aug-2015") (by decide)
  exact h.trans (by decide)

/-! ## Table lemmas (for C7 and C10) -/

theorem find?_cons_true {p : String × List PyVal → Bool} {c : String × List PyVal}
    {cs : Table} (h : p c = true) : (c :: cs).find? p = some c := by
  simp only [List.find?, h]

theorem find?_cons_false {p : String × List PyVal → Bool} {c : String × List PyVal}
    {cs : Table} (h : p c = false) : (c :: cs).find? p = cs.find? p := by
  simp only [List.find?, h]

theorem find?_replace_self (t : Table) (n : String) (vs : List PyVal)
    (h : n ∈ t.map Prod.fst) :
    (t.map (fun c => if c.1 == n then (n, vs) else c)).find? (fun c => c.1 == n) =
      some (n, vs) := by
  induction t with
  | nil => simp at h
  | cons c cs ih =>
      by_cases hc : (c.1 == n) = true
      · rw [List.map_cons, if_pos hc]
        exact find?_cons_true (by simp)
      · have hcf : (c.1 == n) = false := by simpa using hc
        rw [List.map_cons, if_neg (by simp [hcf])]
        rw [find?_cons_false hcf]
        apply ih
        rcases (by simpa using h : n = c.1 ∨ n ∈ cs.map Prod.fst) with h1 | h1
        · exact absurd h1.symm (by simpa using hcf)
        · exact h1

theorem find?_replace_other (t : Table) (n m : String) (vs : List PyVal) (hne : m ≠ n) :
    (t.map (fun c => if c.1 == n then (n, vs) else c)).find? (fun c => c.1 == m) =
      t.find? (fun c => c.1 == m) := by
  have hnm : (n == m) = false := beq_eq_false_iff_ne.mpr (fun hh => hne hh.symm)
  induction t with
  | nil => rfl
  | cons c cs ih =>
      by_cases hc : (c.1 == n) = true
      · have hcn : c.1 = n := by simpa using hc
        rw [List.map_cons, if_pos hc]
        have h2 : (c.1 == m) = false := by rw [hcn]; exact hnm
        rw [find?_cons_false (show ((n, vs).1 == m) = false from hnm),
          find?_cons_false h2, ih]
      · have hcf : (c.1 == n) = false := by simpa using hc
        rw [List.map_cons, if_neg (by simp [hcf])]
        by_cases hcm : (c.1 == m) = true
        · rw [find?_cons_true hcm, find?_cons_true hcm]
        · have hcmf : (c.1 == m) = false := by simpa using hcm
          rw [find?_cons_false hcmf, find?_cons_false hcmf, ih]

theorem find?_none_of_notMem (t : Table) (n : String) (h : n ∉ t.map Prod.fst) :
    t.find? (fun c => c.1 == n) = none := by
  rw [List.find?_eq_none]
  intro c hcmem hbeq
  apply h
  have hcn : c.1 = n := by simpa using hbeq
  rw [← hcn]
  exact List.mem_map_of_mem Prod.fst hcmem

theorem getCol_setCol_self (t : Table) (n : String) (vs : List PyVal) :
    getCol (setCol t n vs) n = vs := by
  unfold setCol
  by_cases hc : ((t.map Prod.fst).contains n) = true
  · rw [if_pos hc]
    unfold getCol
    rw [find?_replace_self t n vs (List.elem_iff.mp hc)]
  · rw [if_neg (by simpa using hc)]
    unfold getCol
    rw [List.find?_append, find?_none_of_notMem t n (fun hmem => hc (List.elem_iff.mpr hmem))]
    rw [find?_cons_true (by simp)]
    rfl

theorem getCol_setCol_other (t : Table) (n m : String) (vs : List PyVal) (hne : m ≠ n) :
    getCol (setCol t n vs) m = getCol t m := by
  have hnm : (n == m) = false := beq_eq_false_iff_ne.mpr (fun hh => hne hh.symm)
  unfold setCol
  by_cases hc : ((t.map Prod.fst).contains n) = true
  · rw [if_pos hc]
    unfold getCol
    rw [find?_replace_other t n m vs hne]
  · rw [if_neg (by simpa using hc)]
    unfold getCol
    rw [List.find?_append]
    have h1 : ([(n, vs)] : Table).find? (fun c => c.1 == m) = none := by
      rw [find?_cons_false hnm]
      rfl
    rw [h1]
    cases t.find? (fun c => c.1 == m) <;> rfl

theorem colNames_setCol_mem (t : Table) (n : String) (vs : List PyVal)
    (h : n ∈ colNames t) : colNames (setCol t n vs) = colNames t := by
  unfold setCol
  have hc : ((t.map Prod.fst).contains n) = true := List.elem_iff.mpr h
  rw [if_pos hc]
  show (t.map _).map Prod.fst = t.map Prod.fst
  rw [List.map_map]
  congr 1
  funext c
  by_cases hcn : (c.1 == n) = true
  · simp only [Function.comp]
    rw [if_pos hcn]
    exact (by simpa using hcn : c.1 = n).symm
  · simp only [Function.comp]
    rw [if_neg (by simpa using hcn)]

theorem colNames_setCol_notMem (t : Table) (n : String) (vs : List PyVal)
    (h : n ∉ colNames t) : colNames (setCol t n vs) = colNames t ++ [n] := by
  unfold setCol
  have hc : ¬(((t.map Prod.fst).contains n) = true) := fun hcc => h (List.elem_iff.mp hcc)
  rw [if_neg hc]
  show (t ++ [(n, vs)]).map Prod.fst = t.map Prod.fst ++ [n]
  rw [List.map_append]
  rfl

theorem getCol_dropCol_other (t : Table) (n m : String) (hne : m ≠ n) :
    getCol (dropCol t n) m = getCol t m := by
  unfold dropCol getCol
  induction t with
  | nil => rfl
  | cons c cs ih =>
      by_cases hc : (c.1 == n) = true
      · have hcn : c.1 = n := by simpa using hc
        rw [List.filter_cons_of_neg (by simp [hc])]
        have h2 : (c.1 == m) = false := by
          rw [hcn]
          exact beq_eq_false_iff_ne.mpr (fun hh => hne hh.symm)
        rw [find?_cons_false h2]
        exact ih
      · have hcf : (c.1 == n) = false := by simpa using hc
        rw [List.filter_cons_of_pos (by simp [hcf])]
        by_cases hcm : (c.1 == m) = true
        · rw [find?_cons_true hcm, find?_cons_true hcm]
        · have hcmf : (c.1 == m) = false := by simpa using hcm
          rw [find?_cons_false hcmf, find?_cons_false hcmf]
          exact ih

theorem colNames_dropCol (t : Table) (n : String) :
    colNames (dropCol t n) = (colNames t).filter (fun x => !(x == n)) := by
  unfold dropCol colNames
  induction t with
  | nil => rfl
  | cons c cs ih =>
      by_cases hc : (c.1 == n) = true
      · rw [List.filter_cons_of_neg (by simp [hc]), List.map_cons,
          List.filter_cons_of_neg (by simp [hc])]
        exact ih
      · have hcf : (c.1 == n) = false := by simpa using hc
        rw [List.filter_cons_of_pos (by simp [hcf]), List.map_cons, List.map_cons,
          List.filter_cons_of_pos (by simp [hcf])]
        rw [ih]

theorem getCol_selectCols (t : Table) (ns : List String) (m : String) (h : m ∈ ns) :
    getCol (selectCols t ns) m = getCol t m := by
  induction ns with
  | nil => simp at h
  | cons n ns ih =>
      show getCol ((n, getCol t n) :: selectCols t ns) m = getCol t m
      by_cases hc : (n == m) = true
      · unfold getCol
        rw [find?_cons_true hc]
        have hnm : n = m := by simpa using hc
        rw [hnm]
      · have hcf : (n == m) = false := by simpa using hc
        show getCol ((n, getCol t n) :: selectCols t ns) m = getCol t m
        unfold getCol
        rw [find?_cons_false hcf]
        have hm2 : m ∈ ns := by
          rcases List.mem_cons.mp h with h1 | h1
          · exact absurd (beq_iff_eq.mpr h1.symm) (by simp [hcf])
          · exact h1
        exact ih hm2

theorem pyIndex_append_self (a : String) (l : List String) (h : a ∉ l) :
    pyIndex a (l ++ [a]) = l.length := by
  induction l with
  | nil => simp [pyIndex]
  | cons b bs ih =>
      have hb : ¬((b == a) = true) := by
        simp only [beq_iff_eq]
        rintro rfl
        exact h (List.mem_cons_self _ _)
      rw [List.cons_append]
      show (if b == a then 0 else pyIndex a (bs ++ [a]) + 1) = bs.length + 1
      rw [if_neg hb, ih (fun hmem => h (List.mem_cons_of_mem _ hmem))]

theorem eraseIdx_append_last {β : Type} (l : List β) (a : β) :
    (l ++ [a]).eraseIdx l.length = l := by
  induction l with
  | nil => rfl
  | cons b bs ih =>
      rw [List.cons_append]
      show b :: (bs ++ [a]).eraseIdx bs.length = b :: bs
      rw [ih]

/-! ## The extract_month_f pipeline -/

theorem month_cell_chain (v : PyVal) :
    dtMonth (toDatetime (strExtractDate (astypeStrCell v))) =
      (match firstDateToken (pyStr v) with
       | some tok =>
           (match pdParseDate tok with
            | some ymd => PyVal.int (ymd.2.1 : Int)
            | none => PyVal.nan)
       | none => PyVal.nan) := by
  cases h : firstDateToken (pyStr v) with
  | none => simp [astypeStrCell, strExtractDate, h, toDatetime, dtMonth]
  | some tok =>
      simp only [astypeStrCell, strExtractDate, h]
      cases h2 : pdParseDate tok with
      | none => simp [toDatetime, h2, dtMonth]
      | some ymd =>
          obtain ⟨y, m, d⟩ := ymd
          simp [toDatetime, h2, dtMonth]

/-- The combined bookkeeping facts about `extract_month_f`: under the natural
naming hypotheses (the source column exists, and the fresh names `date2` and
`month` are not already taken), the output table has the new month column at
position index 1 carrying the four-stage per-cell composition, and its source
column holds the string-converted original values. -/
theorem extract_month_pipeline (t : Table) (p : String)
    (hp : p ∈ colNames t) (hd2 : "date2" ∉ colNames t) (hm : "month" ∉ colNames t) :
    (extract_month_f t p).get? 1 =
      some ("month",
        ((((getCol t p).map astypeStrCell).map strExtractDate).map toDatetime).map dtMonth) ∧
    getCol (extract_month_f t p) p = (getCol t p).map astypeStrCell := by
  have hpd2 : p ≠ "date2" := fun h => hd2 (h ▸ hp)
  have hpm : p ≠ "month" := fun h => hm (h ▸ hp)
  have hmd2 : ("month" : String) ≠ "date2" := by decide
  have n1 : colNames (emStep1 t p) = colNames t := colNames_setCol_mem t p _ hp
  have g1p : getCol (emStep1 t p) p = (getCol t p).map astypeStrCell :=
    getCol_setCol_self t p _
  have hd2n1 : "date2" ∉ colNames (emStep1 t p) := by rw [n1]; exact hd2
  have n2 : colNames (emStep2 t p) = colNames t ++ ["date2"] := by
    unfold emStep2
    rw [colNames_setCol_notMem _ _ _ hd2n1, n1]
  have g2d : getCol (emStep2 t p) "date2" =
      ((getCol t p).map astypeStrCell).map strExtractDate := by
    unfold emStep2
    rw [getCol_setCol_self, g1p]
  have g2p : getCol (emStep2 t p) p = getCol (emStep1 t p) p := by
    unfold emStep2
    exact getCol_setCol_other _ _ _ _ hpd2
  have hd2mem2 : "date2" ∈ colNames (emStep2 t p) := by
    rw [n2]
    exact List.mem_append_right _ (List.mem_singleton.mpr rfl)
  have n3 : colNames (emStep3 t p) = colNames t ++ ["date2"] := by
    unfold emStep3
    rw [colNames_setCol_mem _ _ _ hd2mem2, n2]
  have g3d : getCol (emStep3 t p) "date2" =
      (((getCol t p).map astypeStrCell).map strExtractDate).map toDatetime := by
    unfold emStep3
    rw [getCol_setCol_self, g2d]
  have g3p : getCol (emStep3 t p) p = getCol (emStep2 t p) p := by
    unfold emStep3
    exact getCol_setCol_other _ _ _ _ hpd2
  have hmn3 : "month" ∉ colNames (emStep3 t p) := by
    rw [n3]
    intro hmem
    rcases List.mem_append.mp hmem with h1 | h1
    · exact hm h1
    · exact hmd2 (List.mem_singleton.mp h1)
  have n4 : colNames (emStep4 t p) = (colNames t ++ ["date2"]) ++ ["month"] := by
    unfold emStep4
    rw [colNames_setCol_notMem _ _ _ hmn3, n3]
  have g4m : getCol (emStep4 t p) "month" =
      ((((getCol t p).map astypeStrCell).map strExtractDate).map toDatetime).map dtMonth := by
    unfold emStep4
    rw [getCol_setCol_self, g3d]
  have g4p : getCol (emStep4 t p) p = getCol (emStep3 t p) p := by
    unfold emStep4
    exact getCol_setCol_other _ _ _ _ hpm
  have n5 : colNames (emStep5 t p) = colNames t ++ ["month"] := by
    unfold emStep5
    rw [colNames_dropCol, n4, List.filter_append, List.filter_append]
    have e1 : (colNames t).filter (fun x => !(x == "date2")) = colNames t := by
      rw [List.filter_eq_self]
      intro x hx
      simp only [Bool.not_eq_true']
      exact beq_eq_false_iff_ne.mpr (fun hxe => hd2 (hxe ▸ hx))
    have e2 : (["date2"] : List String).filter (fun x => !(x == "date2")) = [] := by decide
    have e3 : (["month"] : List String).filter (fun x => !(x == "date2")) = ["month"] := by
      decide
    rw [e1, e2, e3, List.append_nil]
  have g5m : getCol (emStep5 t p) "month" = getCol (emStep4 t p) "month" := by
    unfold emStep5
    exact getCol_dropCol_other _ _ _ hmd2
  have g5p : getCol (emStep5 t p) p = getCol (emStep4 t p) p := by
    unfold emStep5
    exact getCol_dropCol_other _ _ _ hpd2
  obtain ⟨n0, rest, hcn⟩ : ∃ n0 rest, colNames t = n0 :: rest := by
    cases hcnt : colNames t with
    | nil => rw [hcnt] at hp; simp at hp
    | cons a l => exact ⟨a, l, rfl⟩
  have hcols2 : pyInsert 1 "month"
      ((colNames (emStep5 t p)).eraseIdx (pyIndex "month" (colNames (emStep5 t p)))) =
      n0 :: "month" :: rest := by
    rw [n5, pyIndex_append_self _ _ hm, eraseIdx_append_last, hcn]
    rfl
  constructor
  · show (selectCols (emStep5 t p) (pyInsert 1 "month"
      ((colNames (emStep5 t p)).eraseIdx (pyIndex "month" (colNames (emStep5 t p)))))).get? 1 = _
    rw [hcols2]
    show some ("month", getCol (emStep5 t p) "month") = _
    rw [g5m, g4m]
  · show getCol (selectCols (emStep5 t p) (pyInsert 1 "month"
      ((colNames (emStep5 t p)).eraseIdx (pyIndex "month" (colNames (emStep5 t p)))))) p = _
    rw [hcols2]
    have hpmem : p ∈ n0 :: "month" :: rest := by
      rcases List.mem_cons.mp (hcn ▸ hp) with h1 | h1
      · exact h1 ▸ List.mem_cons_self _ _
      · exact List.mem_cons_of_mem _ (List.mem_cons_of_mem _ h1)
    rw [getCol_selectCols _ _ _ hpmem, g5p, g4p, g3p, g2p, g1p]

/-! ## C7 -/

/-- C7: for every table (whose source column exists and whose column names do
not already include the scratch name `date2` or the new name `month`),
`extract_month_f` places the new `month` column at position index 1, and every
row's month value is the calendar month of the first substring of the
(stringified) source value matching the 4-digit-dot-2-digit-dot-2-digit
pattern when that substring parses as a valid `YYYY.MM.DD` date, and the
missing sentinel when the pattern is absent or the date does not parse. -/
theorem c7_month_extract (t : Table) (p : String)
    (hp : p ∈ colNames t) (hd2 : "date2" ∉ colNames t) (hm : "month" ∉ colNames t) :
    (extract_month_f t p).get? 1 =
      some ("month", (getCol t p).map (fun v =>
        match firstDateToken (pyStr v) with
        | some tok =>
            (match pdParseDate tok with
             | some ymd => PyVal.int (ymd.2.1 : Int)
             | none => PyVal.nan)
        | none => PyVal.nan)) := by
  rw [(extract_month_pipeline t p hp hd2 hm).1]
  rw [List.map_map, List.map_map, List.map_map]
  congr 2
  congr 1
  funext v
  exact month_cell_chain v

/-- C7 witness: the pipeline evaluated on a concrete two-column table; the
month column lands at index 1 with month 3 extracted from
"GSAF2016.03.12-Smith.pdf" and the missing sentinel for the missing pdf cell. -/
theorem c7_witness :
    (extract_month_f
      [("pdf", [PyVal.str "GSAF2016.03.12-Smith.pdf", PyVal.nan]),
       ("year", [PyVal.int 2016, PyVal.int 2015])] "pdf").get? 1 =
      some ("month", [PyVal.int 3, PyVal.nan]) := by
  have h := c7_month_extract
    [("pdf", [PyVal.str "GSAF2016.03.12-Smith.pdf", PyVal.nan]),
     ("year", [PyVal.int 2016, PyVal.int 2015])] "pdf"
    (by decide) (by decide) (by decide)
  exact h.trans (by decide)

/-! ## C10 -/

/-- C10: `extract_month_f` does not leave the other columns unchanged — in the
output table the source column's values are the `str(...)` conversions of the
originals, and in particular the missing sentinel becomes the literal text
"nan". -/
theorem c10_source_column_rewritten (t : Table) (p : String)
    (hp : p ∈ colNames t) (hd2 : "date2" ∉ colNames t) (hm : "month" ∉ colNames t) :
    getCol (extract_month_f t p) p = (getCol t p).map (fun v => PyVal.str (pyStr v)) ∧
    pyStr PyVal.nan = "nan" := by
  refine ⟨?_, rfl⟩
  rw [(extract_month_pipeline t p hp hd2 hm).2]
  rfl

/-- C10 witness: on a concrete table whose pdf column holds a missing value,
the output pdf column holds the literal string "nan". -/
theorem c10_witness :
    getCol (extract_month_f [("pdf", [PyVal.nan]), ("year", [PyVal.int 2015])] "pdf") "pdf" =
      [PyVal.str "nan"] := by
  have h := (c10_source_column_rewritten
    [("pdf", [PyVal.nan]), ("year", [PyVal.int 2015])] "pdf"
    (by decide) (by decide) (by decide)).1
  exact h.trans (by decide)
